import Mathlib

/-!
Shallow embedding of the `redis_etude` worker (files `settings.py`, `util.py`,
`mixin.py`, `application.py`).

Modelling conventions:
* wall-clock instants and durations (`time.time()` floats) are rationals;
* the backend store, the lock service and the random generator are oracles:
  each call's outcome (pop result, lock acquisition result, extension outcome,
  random draw) is an explicit input, and loops consume a finite script of such
  outcomes;
* a Python value's truthiness is modelled where the code branches on it
  (`None` and the empty string are falsy);
* fire-and-forget tasks (`asyncio.ensure_future`) are recorded as pending-task
  data, never executed inline;
* loops that the code runs forever are given a finite script; exhausting the
  script means the loop is still running, and is reported as `none` / an
  unfinished trace.
-/

namespace RedisEtude

/-! Configuration constants, from `settings.py` (class `Settings`). -/

namespace Settings

/-- `generator_timeout = .5` (500 ms). -/
def generator_timeout : ℚ := 1/2

/-- `connection_timeout = 1`. -/
def connection_timeout : ℚ := 1

/-- `reconnect_timeout = 1`. -/
def reconnect_timeout : ℚ := 1

/-- `get_timeout = 5`. -/
def get_timeout : ℚ := 5

/-- `message_collection = 'msg'`. -/
def message_collection : String := "msg"

/-- `error_collection = 'err'`. -/
def error_collection : String := "err"

/-- `generator_lock = 'gen'`. -/
def generator_lock : String := "gen"

/-- `lifetime = 0` (0 is infinite). -/
def lifetime : ℚ := 0

/-- `save_history = False`. -/
def save_history : Bool := false

end Settings

/-! `util.Ticker`: state is the pair `(timeout, last_call)`. -/

structure Ticker where
  timeout : ℚ
  last_call : ℚ
deriving DecidableEq

/-- `Ticker.__init__`: `self.last_call = time.time() - timeout`, where `now`
is the value `time.time()` returned at construction. -/
def Ticker.init (timeout : ℚ) (now : ℚ) : Ticker :=
  { timeout := timeout, last_call := now - timeout }

/-- The `clear_time = self.last_call + self.timeout` computed in `__anext__`. -/
def Ticker.clearTime (t : Ticker) : ℚ :=
  t.last_call + t.timeout

/-- The duration `__anext__` asks `asyncio.sleep` for: `clear_time - now` when
`clear_time > now`, and no sleep at all otherwise. -/
def Ticker.sleepAmount (t : Ticker) (now : ℚ) : ℚ :=
  if t.clearTime > now then t.clearTime - now else 0

/-- `Ticker.__anext__` after the (possible) sleep: `self.last_call` is set to
the second `time.time()` reading, `timeAfterWait`. -/
def Ticker.anext (t : Ticker) (timeAfterWait : ℚ) : Ticker :=
  { t with last_call := timeAfterWait }

/-! `RedisMixin._conn_execute` / `_get_connection` (`mixin.py`).
The script lists the outcome of each successive backend attempt:
`Except.error ()` is an `aioredis.errors.RedisError`, `Except.ok v` a
successful result. -/

structure ConnState where
  connection : Option ℕ
  nextConnId : ℕ
  sleeps : List ℚ
  closed : List ℕ
deriving DecidableEq

/-- `RedisMixin._get_connection`: reuse the live connection if present,
otherwise create a fresh one (modelled as the next connection id). -/
def get_connection (s : ConnState) : ℕ × ConnState :=
  match s.connection with
  | some c => (c, s)
  | none =>
      (s.nextConnId,
        { s with connection := some s.nextConnId, nextConnId := s.nextConnId + 1 })

/-- `RedisMixin._conn_execute`: loop forever; on a `RedisError` close the
connection, set it to `None`, sleep `connection_timeout`, retry; on success
return the backend's result.  `none` means the finite script ran out while the
loop was still retrying. -/
def conn_execute {α : Type} (connectionTimeout : ℚ) (s : ConnState) :
    List (Except Unit α) → Option (α × ConnState)
  | [] => none
  | outcome :: rest =>
      let cs := get_connection s
      match outcome with
      | Except.ok v => some (v, cs.2)
      | Except.error _ =>
          let s2 : ConnState :=
            { cs.2 with
              connection := none
              closed := cs.2.closed ++ [cs.1]
              sleeps := cs.2.sleeps ++ [connectionTimeout] }
          conn_execute connectionTimeout s2 rest

/-! `RedisMixin._become_a_gen` / `_extend_gen_lock` (`mixin.py`).
An `aioredlock.Lock` is opaque; `lockValid` is the value of the
time-dependent check `self._lock.valid` at the moment it is evaluated,
`acqResult` the outcome of `lock_manager.lock` (`none` = `LockError`), and
`extendOk` the outcome of `lock_manager.extend` (`false` = `LockError`). -/

structure Lock where
  id : ℕ
deriving DecidableEq

structure GenState where
  lock : Option Lock
deriving DecidableEq

/-- `RedisMixin._become_a_gen`: on successful acquisition store the lock in
`self._lock` and return `True`; on `LockError` return `False`. -/
def become_a_gen (acqResult : Option Lock) (s : GenState) : Bool × GenState :=
  match acqResult with
  | some l => (true, { lock := some l })
  | none => (false, s)

/-- `RedisMixin._extend_gen_lock`: if `self._lock` is absent or invalid, first
try `_become_a_gen` (returning `False` if that fails); then ask the lock
manager to extend `self._lock`, returning `True` on success and `False` on
`LockError`. -/
def extend_gen_lock (lockValid : Bool) (acqResult : Option Lock) (extendOk : Bool)
    (s : GenState) : Bool × GenState :=
  let needAcquire : Bool :=
    match s.lock with
    | none => true
    | some _ => !lockValid
  if needAcquire then
    match become_a_gen acqResult s with
    | (false, s1) => (false, s1)
    | (true, s1) => if extendOk then (true, s1) else (false, s1)
  else
    if extendOk then (true, s) else (false, s)

/-! `App.async_run_gen` (`application.py`): the producer loop, one script entry
per Ticker fire.  `keepGoing` is the value `self._keep_going()` returns at the
top of the iteration, `msg` the message `_gen_msg` would produce. -/

structure GenIter where
  keepGoing : Bool
  lockValid : Bool
  acqResult : Option Lock
  extendOk : Bool
  msg : String
deriving DecidableEq

inductive GenEvent
  | extended (ok : Bool)
  | posted (msg : String)
deriving DecidableEq

/-- `App.async_run_gen`: each iteration first checks `_keep_going` (returning
if false), then calls `_extend_gen_lock`; on success it generates and posts one
message and loops, on failure it returns.  The trace records each extension
outcome and each posted message. -/
def run_gen (s : GenState) : List GenIter → List GenEvent
  | [] => []
  | it :: rest =>
      if it.keepGoing = false then []
      else
        match extend_gen_lock it.lockValid it.acqResult it.extendOk s with
        | (true, s1) => GenEvent.extended true :: GenEvent.posted it.msg :: run_gen s1 rest
        | (false, _) => [GenEvent.extended false]

/-! `App._keep_going`, `App._get_msg`, `App.async_run_receiver`,
`App._handle_msg`, `App.async_get_errors` (`application.py`). -/

/-- `App._keep_going`: `False` if `self._stop`; `True` if `settings.lifetime`
is falsy (zero); otherwise `self._start_time + settings.lifetime > time.time()`. -/
def keep_going (stop : Bool) (lifetime start_time now : ℚ) : Bool :=
  if stop then false
  else if lifetime = 0 then true
  else if start_time + lifetime > now then true else false

/-- The default `err_rate=.05` of `App._handle_msg`. -/
def err_rate : ℚ := 1/20

/-- `App._get_msg`: `_blpop` returns `(queue, value)` or `None`; on a (truthy)
tuple the second component is returned, otherwise `None`. -/
def get_msg (popResult : Option (String × String)) : Option String :=
  match popResult with
  | some qv => some qv.2
  | none => none

structure RecvIter where
  keepGoing : Bool
  popResult : Option (String × String)
  draw : ℚ
deriving DecidableEq

inductive RecvEvent
  | popped (timeout : ℚ) (result : Option (String × String))
  | handled (msg : String)
  | spawnedErr (msg : String)
  | stopped
deriving DecidableEq

/-- `App._handle_msg` as events: the message is processed, and when the random
draw is below `err_rate` a fire-and-forget `_handle_msg_err` task is spawned
(`asyncio.ensure_future`, never awaited); the function always returns to the
loop. -/
def handle_msg_events (draw : ℚ) (msg : String) : List RecvEvent :=
  RecvEvent.handled msg ::
    (if draw < err_rate then [RecvEvent.spawnedErr msg] else [])

/-- `App.async_run_receiver`: while `_keep_going()`, pop with `_get_msg`
(a `blpop` bounded by `get_timeout`); `if msg:` — a non-empty message is
handled and the loop continues, while `None` or an empty (falsy) message ends
the loop. -/
def run_receiver (getTimeout : ℚ) : List RecvIter → List RecvEvent
  | [] => []
  | it :: rest =>
      if it.keepGoing = false then [RecvEvent.stopped]
      else
        RecvEvent.popped getTimeout it.popResult ::
          (match get_msg it.popResult with
           | some v =>
               if v == "" then [RecvEvent.stopped]
               else handle_msg_events it.draw v ++ run_receiver getTimeout rest
           | none => [RecvEvent.stopped])

/-- `App.async_get_errors`: `_lpop` the error queue (the list argument); while
the popped value is truthy, dispatch `_handle_err` as a fire-and-forget task
and count it; a `None` (empty queue) or falsy (empty string) pop ends the loop.
Returns `(err_count, dispatched errors in order, remaining queue)`. -/
def async_get_errors : List String → ℕ × List String × List String
  | [] => (0, [], [])
  | e :: rest =>
      if e == "" then (0, [], rest)
      else
        let r := async_get_errors rest
        (r.1 + 1, e :: r.2.1, r.2.2)

/-! History bookkeeping (`App._post_msg`, `_handle_msg`, `_handle_msg_err`,
`_handle_err`): the four in-memory lists, guarded by `settings.save_history`,
next to each operation's queue side effect. -/

structure Hist where
  sent_messages : List String
  sent_errors : List String
  received_messages : List String
  received_errors : List String
deriving DecidableEq

structure Queues where
  msgQueue : List String
  errQueue : List String
deriving DecidableEq

/-- `App._post_msg`: `_rpush` the message onto the message queue; append to
`sent_messages` only when `save_history`. -/
def post_msg (saveHistory : Bool) (msg : String) (h : Hist) (q : Queues) :
    Hist × Queues :=
  let q1 : Queues := { q with msgQueue := q.msgQueue ++ [msg] }
  let h1 : Hist :=
    if saveHistory then { h with sent_messages := h.sent_messages ++ [msg] } else h
  (h1, q1)

/-- `App._handle_msg` as a state update: append to `received_messages` only
when `save_history`; spawn a `_handle_msg_err` pending task when the draw is
below `err_rate`.  Returns the new history and the spawned tasks. -/
def handle_msg (saveHistory : Bool) (draw : ℚ) (msg : String) (h : Hist) :
    Hist × List String :=
  let h1 : Hist :=
    if saveHistory then { h with received_messages := h.received_messages ++ [msg] } else h
  let tasks : List String := if draw < err_rate then [msg] else []
  (h1, tasks)

/-- `App._handle_msg_err`: `_rpush` the message onto the error queue; append to
`sent_errors` only when `save_history`. -/
def handle_msg_err (saveHistory : Bool) (msg : String) (h : Hist) (q : Queues) :
    Hist × Queues :=
  let q1 : Queues := { q with errQueue := q.errQueue ++ [msg] }
  let h1 : Hist :=
    if saveHistory then { h with sent_errors := h.sent_errors ++ [msg] } else h
  (h1, q1)

/-- `App._handle_err`: append to `received_errors` only when `save_history`;
no queue side effect. -/
def handle_err (saveHistory : Bool) (err : String) (h : Hist) : Hist :=
  if saveHistory then { h with received_errors := h.received_errors ++ [err] } else h

end RedisEtude

namespace RedisEtude

/-! Helper lemmas shared by several developments. -/

theorem get_connection_sleeps (s : ConnState) :
    (get_connection s).2.sleeps = s.sleeps := by
  obtain ⟨c, n, sl, cl⟩ := s
  cases c <;> rfl

theorem get_connection_closed (s : ConnState) :
    (get_connection s).2.closed = s.closed := by
  obtain ⟨c, n, sl, cl⟩ := s
  cases c <;> rfl

theorem getLast?_cons_of_ne_nil {α : Type} (a : α) {l : List α} (h : l ≠ []) :
    (a :: l).getLast? = l.getLast? := by
  cases l with
  | nil => exact absurd rfl h
  | cons b t => exact List.getLast?_cons_cons

/-- C2: a Ticker built with interval `T` starts with `last_call` equal to the
creation time minus `T`, its first fire request sleeps for nothing, and every
fire moves `last_call` forward by at least `timeout` over the previous value,
however little time the caller's work between the fires took. -/
theorem C2_ticker_interval :
    (∀ T t0 : ℚ, (Ticker.init T t0).last_call = t0 - T) ∧
    (∀ T t0 now : ℚ, t0 ≤ now → (Ticker.init T t0).sleepAmount now = 0) ∧
    (∀ (t : Ticker) (now t2 : ℚ), now + t.sleepAmount now ≤ t2 →
      t.last_call + t.timeout ≤ (t.anext t2).last_call) := by
  refine ⟨fun T t0 => rfl, ?_, ?_⟩
  · intro T t0 now h
    simp only [Ticker.init, Ticker.sleepAmount, Ticker.clearTime]
    rw [if_neg (by push_neg; linarith)]
  · intro t now t2 h
    simp only [Ticker.sleepAmount, Ticker.clearTime] at h
    show t.last_call + t.timeout ≤ t2
    split at h <;> linarith

/-- C2 witness: concrete run of `C2_ticker_interval` at interval 1, creation
time 0, first call at time 0, and a fire that finished waiting at time 5. -/
theorem C2_ticker_interval_witness :
    (Ticker.init 1 0).last_call = 0 - 1 ∧
    (Ticker.init 1 0).sleepAmount 0 = 0 ∧
    (Ticker.init 1 0).last_call + (Ticker.init 1 0).timeout ≤
      ((Ticker.init 1 0).anext 5).last_call := by
  refine ⟨C2_ticker_interval.1 1 0, C2_ticker_interval.2.1 1 0 0 le_rfl,
    C2_ticker_interval.2.2 (Ticker.init 1 0) 3 5 ?_⟩
  norm_num [Ticker.init, Ticker.sleepAmount, Ticker.clearTime]

/-- C5: `_become_a_gen` returns true and stores the acquired lock on success,
and returns false leaving the state unchanged when acquisition raises
`LockError` (modelled as `acqResult = none`); the outcome is always a boolean,
never an exception. -/
theorem C5_become_a_gen_boolean (acqResult : Option Lock) (s : GenState) :
    (∀ l, acqResult = some l → become_a_gen acqResult s = (true, { lock := some l })) ∧
    (acqResult = none → become_a_gen acqResult s = (false, s)) := by
  constructor
  · intro l hl
    subst hl
    rfl
  · intro hl
    subst hl
    rfl

/-- C5 witness: `C5_become_a_gen_boolean` at a successful acquisition of lock 7
and at a failed acquisition with lock 3 already stored. -/
theorem C5_become_a_gen_boolean_witness :
    become_a_gen (some ⟨7⟩) ⟨none⟩ = (true, { lock := some ⟨7⟩ }) ∧
    become_a_gen none ⟨some ⟨3⟩⟩ = (false, ⟨some ⟨3⟩⟩) :=
  ⟨(C5_become_a_gen_boolean (some ⟨7⟩) ⟨none⟩).1 ⟨7⟩ rfl,
   (C5_become_a_gen_boolean none ⟨some ⟨3⟩⟩).2 rfl⟩

/-- C4: `_extend_gen_lock` first re-acquires through `_become_a_gen` when no
lock is held or the held lock is invalid, returning false if that acquisition
fails; otherwise it extends the held lock, returning true exactly when the
extension succeeds and false on a `LockError`; the outcome is always a
boolean, never an exception. -/
theorem C4_try_extend_boolean (lockValid : Bool) (acqResult : Option Lock)
    (extendOk : Bool) (s : GenState) :
    ((s.lock = none ∨ lockValid = false) → acqResult = none →
        extend_gen_lock lockValid acqResult extendOk s = (false, s)) ∧
    (∀ l, (s.lock = none ∨ lockValid = false) → acqResult = some l →
        extend_gen_lock lockValid acqResult extendOk s = (extendOk, { lock := some l })) ∧
    (∀ l0, s.lock = some l0 → lockValid = true →
        extend_gen_lock lockValid acqResult extendOk s = (extendOk, s)) := by
  obtain ⟨lk⟩ := s
  cases lk <;> cases lockValid <;> cases acqResult <;> cases extendOk <;>
    simp [extend_gen_lock, become_a_gen]

/-- C4 witness: `C4_try_extend_boolean` at a failed re-acquisition, at a
successful re-acquisition of lock 2 followed by extension, and at an extension
failure on a valid held lock 4. -/
theorem C4_try_extend_boolean_witness :
    extend_gen_lock true none true ⟨none⟩ = (false, ⟨none⟩) ∧
    extend_gen_lock false (some ⟨2⟩) true ⟨some ⟨1⟩⟩ = (true, { lock := some ⟨2⟩ }) ∧
    extend_gen_lock true none false ⟨some ⟨4⟩⟩ = (false, ⟨some ⟨4⟩⟩) :=
  ⟨(C4_try_extend_boolean true none true ⟨none⟩).1 (Or.inl rfl) rfl,
   (C4_try_extend_boolean false (some ⟨2⟩) true ⟨some ⟨1⟩⟩).2.1 ⟨2⟩ (Or.inr rfl) rfl,
   (C4_try_extend_boolean true none false ⟨some ⟨4⟩⟩).2.2 ⟨4⟩ rfl rfl⟩

/-- C6 counterexample: with no stop request, lifetime 1, start time 0 and
current time 1 the elapsed time equals the lifetime without exceeding it, yet
`_keep_going` already returns false — the claim's "exceeds" (strict) reading
of the boundary is refuted. -/
theorem C6_keep_going_cex :
    ¬ (keep_going false 1 0 1 = false ↔
        (false = true ∨ ((1:ℚ) ≠ 0 ∧ 1 - 0 > 1))) := by
  norm_num [keep_going]

/-- C6 amended: `_keep_going` returns false iff the stop flag is set, or a
nonzero lifetime is configured and the elapsed time since the run began
reaches or exceeds that lifetime; with zero lifetime and no stop request it
returns true for every elapsed time. -/
theorem C6_keep_going_run_budget (stop : Bool) (lifetime start_time now : ℚ) :
    (keep_going stop lifetime start_time now = false ↔
      (stop = true ∨ (lifetime ≠ 0 ∧ lifetime ≤ now - start_time))) ∧
    (stop = false → lifetime = 0 → keep_going stop lifetime start_time now = true) := by
  constructor
  · unfold keep_going
    split_ifs with h1 h2 h3
    · simp [h1]
    · simp_all
    · simp_all
      linarith
    · simp_all
      linarith
  · intro hstop h0
    simp [keep_going, hstop, h0]

/-- C6 witness: `C6_keep_going_run_budget` with zero lifetime and no stop
request at start time 5 and current time 100. -/
theorem C6_keep_going_run_budget_witness :
    keep_going false 0 5 100 = true :=
  (C6_keep_going_run_budget false 0 5 100).2 rfl rfl

/-- C10: with `save_history = false` every history-recording operation
(`_post_msg`, `_handle_msg`, `_handle_msg_err`, `_handle_err`) leaves the four
in-memory history lists unchanged while still performing exactly the queue
side effects (and spawned tasks) it performs with `save_history = true`. -/
theorem C10_save_history_frame (msg err : String) (draw : ℚ) (h : Hist) (q : Queues) :
    (post_msg false msg h q).1 = h ∧
    (post_msg false msg h q).2 = (post_msg true msg h q).2 ∧
    (post_msg false msg h q).2.msgQueue = q.msgQueue ++ [msg] ∧
    (handle_msg false draw msg h).1 = h ∧
    (handle_msg false draw msg h).2 = (handle_msg true draw msg h).2 ∧
    (handle_msg_err false msg h q).1 = h ∧
    (handle_msg_err false msg h q).2 = (handle_msg_err true msg h q).2 ∧
    (handle_msg_err false msg h q).2.errQueue = q.errQueue ++ [msg] ∧
    handle_err false err h = h := by
  simp [post_msg, handle_msg, handle_msg_err, handle_err]

/-- C9 counterexample: draining an error queue holding the single (falsy)
empty-string error pops that error off the queue (the queue is left empty) yet
reports a count of 0 and dispatches nothing — the pop did not return none, so
the claim's "until a pop returns none" and "count equals the number popped"
are both refuted. -/
theorem C9_drain_cex :
    async_get_errors [""] = (0, [], []) ∧ (0 : ℕ) ≠ ([""] : List String).length :=
  ⟨rfl, by decide⟩

/-- C9 amended: `async_get_errors` pops the error queue without waiting until
a pop returns none or a falsy (empty-string) error; every popped non-empty
error is dispatched to the handler as an unawaited concurrent task, in order,
and the reported count equals the number of non-empty errors popped; a popped
empty-string error is removed from the queue but neither counted nor
dispatched. -/
theorem C9_drain_counts (queue : List String) :
    (async_get_errors queue).1 = (queue.takeWhile (fun e => !(e == ""))).length ∧
    (async_get_errors queue).2.1 = queue.takeWhile (fun e => !(e == "")) ∧
    (async_get_errors queue).2.2 =
      queue.drop ((queue.takeWhile (fun e => !(e == ""))).length + 1) := by
  induction queue with
  | nil => simp [async_get_errors]
  | cons e rest ih =>
      by_cases he : e == ""
      · simp [async_get_errors, he, List.takeWhile_cons]
      · simp [async_get_errors, he, List.takeWhile_cons, ih.1, ih.2.1, ih.2.2]

end RedisEtude

namespace RedisEtude

/-- C7 counterexample: when the blocking pop yields the pair
`(message_collection, "")` — a result, whose message value is the (falsy)
empty string — the consumer loop terminates without processing the value,
refuting the claim that every yielded result is processed and the loop
continues. -/
theorem C7_receiver_cex :
    run_receiver Settings.get_timeout [⟨true, some (Settings.message_collection, ""), 1⟩] =
      [RecvEvent.popped Settings.get_timeout (some (Settings.message_collection, "")),
       RecvEvent.stopped] ∧
    RecvEvent.handled "" ∉
      run_receiver Settings.get_timeout [⟨true, some (Settings.message_collection, ""), 1⟩] := by
  refine ⟨rfl, ?_⟩
  rw [show run_receiver Settings.get_timeout
        [⟨true, some (Settings.message_collection, ""), 1⟩] =
      [RecvEvent.popped Settings.get_timeout (some (Settings.message_collection, "")),
       RecvEvent.stopped] from rfl]
  simp

/-- C7 amended: in every consumer-loop iteration reached with the run budget
passing, a blocking pop bounded by `get_timeout` is issued; if it yields a
result with a non-empty message value, that value is processed and the loop
continues; if it returns none, or yields a result whose message value is the
(falsy) empty string, the loop terminates. -/
theorem C7_receiver_iteration (getTimeout : ℚ) (it : RecvIter) (rest : List RecvIter) :
    (it.keepGoing = false → run_receiver getTimeout (it :: rest) = [RecvEvent.stopped]) ∧
    (∀ q v, it.keepGoing = true → it.popResult = some (q, v) → v ≠ "" →
        run_receiver getTimeout (it :: rest) =
          RecvEvent.popped getTimeout it.popResult ::
            (handle_msg_events it.draw v ++ run_receiver getTimeout rest)) ∧
    (it.keepGoing = true → it.popResult = none →
        run_receiver getTimeout (it :: rest) =
          [RecvEvent.popped getTimeout none, RecvEvent.stopped]) ∧
    (∀ q, it.keepGoing = true → it.popResult = some (q, "") →
        run_receiver getTimeout (it :: rest) =
          [RecvEvent.popped getTimeout (some (q, "")), RecvEvent.stopped]) := by
  refine ⟨?_, ?_, ?_, ?_⟩
  · intro hk
    simp [run_receiver, hk]
  · intro q v hk hp hv
    simp [run_receiver, hk, hp, get_msg, hv]
  · intro hk hp
    simp [run_receiver, hk, hp, get_msg]
  · intro q hk hp
    simp [run_receiver, hk, hp, get_msg]

/-- C7 witness: `C7_receiver_iteration` at one running iteration whose pop
yields the non-empty message "a". -/
theorem C7_receiver_iteration_witness :
    run_receiver 5 [⟨true, some ("msg", "a"), 1⟩] =
      RecvEvent.popped 5 (some ("msg", "a")) ::
        (handle_msg_events 1 "a" ++ run_receiver 5 []) :=
  (C7_receiver_iteration 5 ⟨true, some ("msg", "a"), 1⟩ []).2.1 "msg" "a" rfl rfl
    (by decide)

/-- C8: a consumed message spawns a fire-and-forget `_handle_msg_err` task
(which reroutes the message to the error queue) exactly when the random draw
falls below the fixed 5% rate (`err_rate = 1/20`); the handler never stops the
loop, and after a handled message the consumer loop continues with the
remaining iterations whatever the draw was. -/
theorem C8_error_injection (draw : ℚ) (msg : String) :
    (RecvEvent.spawnedErr msg ∈ handle_msg_events draw msg ↔ draw < err_rate) ∧
    err_rate = 1/20 ∧
    RecvEvent.stopped ∉ handle_msg_events draw msg ∧
    (∀ getTimeout (it : RecvIter) rest q, it.keepGoing = true →
        it.popResult = some (q, msg) → msg ≠ "" →
        run_receiver getTimeout (it :: rest) =
          RecvEvent.popped getTimeout it.popResult ::
            (handle_msg_events it.draw msg ++ run_receiver getTimeout rest)) := by
  refine ⟨?_, rfl, ?_, ?_⟩
  · by_cases hd : draw < err_rate <;> simp [handle_msg_events, hd]
  · by_cases hd : draw < err_rate <;> simp [handle_msg_events, hd]
  · intro getTimeout it rest q hk hp hm
    simp [run_receiver, hk, hp, get_msg, hm]

/-- C8 witness: `C8_error_injection` with draw 0 (below the 5% rate, so the
error task is spawned) on message "a", and the continuing loop equation at a
concrete iteration. -/
theorem C8_error_injection_witness :
    RecvEvent.spawnedErr "a" ∈ handle_msg_events 0 "a" ∧
    run_receiver 5 [⟨true, some ("q", "a"), 0⟩] =
      RecvEvent.popped 5 (some ("q", "a")) ::
        (handle_msg_events 0 "a" ++ run_receiver 5 []) := by
  refine ⟨(C8_error_injection 0 "a").1.mpr ?_,
    (C8_error_injection 0 "a").2.2.2 5 ⟨true, some ("q", "a"), 0⟩ [] "q" rfl rfl
      (by decide)⟩
  rw [(C8_error_injection 0 "a").2.1]
  norm_num

/-- C3: `_conn_execute` never surfaces a backend `RedisError` to its caller:
after any finite run of failures it returns the result of the first
non-failing attempt, having slept the fixed `connection_timeout` once per
failure and having closed (and reset to none) the connection after each
failure; a script of failures only leaves it still retrying, with no error
outcome in its return type. -/
theorem C3_conn_execute_resilient {α : Type} (connectionTimeout : ℚ) (s : ConnState)
    (errs : List Unit) (v : α) (rest : List (Except Unit α)) :
    (∃ s1 : ConnState,
        conn_execute connectionTimeout s (List.map Except.error errs ++ Except.ok v :: rest) =
          some (v, s1) ∧
        s1.sleeps = s.sleeps ++ List.replicate errs.length connectionTimeout ∧
        s1.closed.length = s.closed.length + errs.length) ∧
    conn_execute connectionTimeout s (List.map Except.error errs) =
      (none : Option (α × ConnState)) := by
  induction errs generalizing s with
  | nil =>
      refine ⟨⟨(get_connection s).2, rfl, ?_, ?_⟩, rfl⟩
      · simp [get_connection_sleeps]
      · simp [get_connection_closed]
  | cons u us ih =>
      have step : conn_execute connectionTimeout s
            (List.map Except.error (u :: us) ++ Except.ok v :: rest) =
          conn_execute connectionTimeout
            { (get_connection s).2 with
              connection := none
              closed := (get_connection s).2.closed ++ [(get_connection s).1]
              sleeps := (get_connection s).2.sleeps ++ [connectionTimeout] }
            (List.map Except.error us ++ Except.ok v :: rest) := rfl
      have step2 : conn_execute connectionTimeout s (List.map Except.error (u :: us)) =
          (conn_execute connectionTimeout
            { (get_connection s).2 with
              connection := none
              closed := (get_connection s).2.closed ++ [(get_connection s).1]
              sleeps := (get_connection s).2.sleeps ++ [connectionTimeout] }
            (List.map Except.error us) : Option (α × ConnState)) := rfl
      obtain ⟨s1, hrun, hsleeps, hclosed⟩ :=
        (ih { (get_connection s).2 with
              connection := none
              closed := (get_connection s).2.closed ++ [(get_connection s).1]
              sleeps := (get_connection s).2.sleeps ++ [connectionTimeout] }).1
      refine ⟨⟨s1, ?_, ?_, ?_⟩, ?_⟩
      · rw [step]
        exact hrun
      · rw [hsleeps]
        simp [get_connection_sleeps, List.replicate_succ]
      · rw [hclosed]
        simp [get_connection_closed]
        omega
      · rw [step2]
        exact (ih _).2

/-- C1: on every producer-loop trace, a message is posted only immediately
after a lease extension that returned true, and once an extension attempt
returns false the trace ends there — no further message is ever posted within
that producing epoch. -/
theorem C1_producer_only_with_lease (s : GenState) (script : List GenIter) :
    (∀ pre msg post, run_gen s script = pre ++ GenEvent.posted msg :: post →
        pre.getLast? = some (GenEvent.extended true)) ∧
    (∀ pre post, run_gen s script = pre ++ GenEvent.extended false :: post →
        post = []) := by
  induction script generalizing s with
  | nil =>
      constructor
      · intro pre msg post h
        simp [run_gen] at h
      · intro pre post h
        simp [run_gen] at h
  | cons it rest ih =>
      by_cases hk : it.keepGoing = false
      · constructor
        · intro pre msg post h
          simp [run_gen, hk] at h
        · intro pre post h
          simp [run_gen, hk] at h
      · cases hres : extend_gen_lock it.lockValid it.acqResult it.extendOk s with
        | mk ok s1 =>
          cases ok with
          | false =>
              have htr : run_gen s (it :: rest) = [GenEvent.extended false] := by
                simp [run_gen, hk, hres]
              constructor
              · intro pre msg post h
                rw [htr] at h
                cases pre with
                | nil => simp at h
                | cons a pre' => simp at h
              · intro pre post h
                rw [htr] at h
                cases pre with
                | nil =>
                    simp only [List.nil_append] at h
                    injection h with h1 h2
                    exact h2.symm
                | cons a pre' =>
                    injection h with h1 h2
                    exact absurd h2.symm (by simp)
          | true =>
              have htr : run_gen s (it :: rest) =
                  GenEvent.extended true :: GenEvent.posted it.msg :: run_gen s1 rest := by
                simp [run_gen, hk, hres]
              constructor
              · intro pre msg post h
                rw [htr] at h
                cases pre with
                | nil =>
                    simp only [List.nil_append] at h
                    injection h with h1 h2
                    exact absurd h1 (by simp)
                | cons a pre' =>
                    injection h with h1 h2
                    cases pre' with
                    | nil =>
                        simp [← h1]
                    | cons b pre'' =>
                        injection h2 with h3 h4
                        have hlast := (ih s1).1 pre'' msg post h4
                        have hne : pre'' ≠ [] := by
                          intro hnil
                          rw [hnil] at hlast
                          simp at hlast
                        rw [List.getLast?_cons_cons, getLast?_cons_of_ne_nil b hne]
                        exact hlast
              · intro pre post h
                rw [htr] at h
                cases pre with
                | nil =>
                    simp only [List.nil_append] at h
                    injection h with h1 h2
                    exact absurd h1 (by simp)
                | cons a pre' =>
                    injection h with h1 h2
                    cases pre' with
                    | nil =>
                        injection h2 with h3 h4
                        exact absurd h3 (by simp)
                    | cons b pre'' =>
                        injection h2 with h3 h4
                        exact (ih s1).2 pre'' post h4

/-- C1 witness: `C1_producer_only_with_lease` on a concrete two-iteration
script whose trace is `[extended true, posted "a", extended false]`. -/
theorem C1_producer_only_with_lease_witness :
    ([GenEvent.extended true] : List GenEvent).getLast? = some (GenEvent.extended true) ∧
    ([] : List GenEvent) = [] := by
  have h := C1_producer_only_with_lease ⟨none⟩
      [⟨true, false, some ⟨1⟩, true, "a"⟩, ⟨true, true, none, false, "b"⟩]
  exact ⟨h.1 [GenEvent.extended true] "a" [GenEvent.extended false] rfl,
         h.2 [GenEvent.extended true, GenEvent.posted "a"] [] rfl⟩

end RedisEtude
